import Mathlib

/-!
Shallow embedding of the motion-control core of the MbRobot FLL robot
(src/robot/src/core/robot.py).  Hardware collaborators (gyro, wheel
motors, reflectance sensors, calibration log) are modelled as
per-iteration traces bundled in a RobotEnv record; each control loop
takes a fuel argument and returns none when the fuel is exhausted (the
surrogate for nontermination).  All Python numbers are modelled as
rationals.  Motor, gyro and nested-call operations are recorded as an
event list in program order.
-/

/-- Modelled from the spec: the PidController class lives in
src/robot/src/core/control.py, which is not among the sources; its
contract is spec section 4.1.  Gains plus mutable accumulator state. -/
structure PidController where
  kp : ℚ
  ki : ℚ
  kd : ℚ
  integral : ℚ
  previous_error : ℚ
  output : ℚ
deriving DecidableEq, Repr

/-- Modelled from the spec: constructing a PidController with the given
gains and zeroed accumulator state (control.py is not among the
sources).  Call sites with two arguments such as PidController(6, 0.15)
pass 0 for the derivative gain here. -/
def PidController.init (kp ki kd : ℚ) : PidController :=
  { kp := kp, ki := ki, kd := kd, integral := 0, previous_error := 0, output := 0 }

/-- Modelled from the spec (4.1): reset zeroes the integral accumulator
and the previous error. -/
def PidController.reset (c : PidController) : PidController :=
  { c with integral := 0, previous_error := 0 }

/-- Modelled from the spec (4.1): settings replaces each gain for which
an argument is supplied and retains the current gain for each absent
argument; accumulated state is untouched. -/
def PidController.settings (c : PidController) (p i d : Option ℚ) : PidController :=
  { c with kp := p.getD c.kp, ki := i.getD c.ki, kd := d.getD c.kd }

/-- Modelled from the spec (4.1): execute(error) updates the integral,
computes the derivative against the previous error, stores and returns
the combined output. -/
def PidController.execute (c : PidController) (error : ℚ) : PidController :=
  let integral := c.integral + error
  let derivative := error - c.previous_error
  let output := c.kp * error + c.ki * integral + c.kd * derivative
  { c with integral := integral, previous_error := error, output := output }

/-- Iterate execute n times with the same error value. -/
def PidController.execN (c : PidController) (e : ℚ) : ℕ → PidController
  | 0 => c
  | n + 1 => (c.execN e n).execute e

/-- Observable operations issued by the robot core: wheel-motor
commands, angle and gyro resets, and nested drive/turn calls made by
the composite primitives. -/
inductive Event where
  | runL (speed : ℚ)
  | runR (speed : ℚ)
  | holdL
  | holdR
  | brakeL
  | brakeR
  | resetAngleL
  | resetAngleR
  | gyroReset
  | driveCall (distance : ℚ)
  | turnCall (angle : ℚ)
deriving DecidableEq, Repr

/-- Hardware collaborators as per-iteration traces: gyro angle, the two
wheel-angle counters, the stall query (taking the min-speed threshold),
the two reflectance sensors, the calibration log pair
(white value, black value), the external cm-to-degrees conversion of
tools.py, and the shared active flag sampled at each loop check. -/
structure RobotEnv where
  gyro : ℕ → ℚ
  motorL : ℕ → ℚ
  motorR : ℕ → ℚ
  stallL : ℕ → ℚ → Bool
  stallR : ℕ → ℚ → Bool
  reflL : ℕ → ℚ
  reflR : ℕ → ℚ
  calib : ℚ × ℚ
  conv : ℚ → ℚ
  active : ℕ → Bool

/-- Orientation argument of drive: either a constant heading offset or
a callable error source evaluated every iteration. -/
inductive OrientationArg where
  | const (value : ℚ)
  | dyn (f : ℕ → ℚ)

/-- PID controllers owned by the robot facade. -/
structure MbRobot where
  TurnSpeedControl : PidController
  RunSpeedControl : PidController
  RunHeadingControl : PidController
  LineFollowerSpeedControl : PidController
  LineFollowerHeadingControl : PidController
deriving DecidableEq, Repr

/-- setup_control of robot.py: re-instantiate the selected controllers
with their default gains. -/
def setup_control (r : MbRobot) (turn_control run_control line_follower_control : Bool) :
    MbRobot :=
  let r1 := if turn_control then
    { r with TurnSpeedControl := PidController.init 6 0.15 0 } else r
  let r2 := if run_control then
    { r1 with RunSpeedControl := PidController.init 3 0.17 0,
              RunHeadingControl := PidController.init 15 0.1 0 } else r1
  if line_follower_control then
    { r2 with LineFollowerSpeedControl := PidController.init 1.4 0 0,
              LineFollowerHeadingControl := PidController.init 3 0 0.4 } else r2

/-- Robot state right after construction: setup_control(True, True, True). -/
def MbRobot.start : MbRobot :=
  setup_control
    { TurnSpeedControl := PidController.init 0 0 0
      RunSpeedControl := PidController.init 0 0 0
      RunHeadingControl := PidController.init 0 0 0
      LineFollowerSpeedControl := PidController.init 0 0 0
      LineFollowerHeadingControl := PidController.init 0 0 0 }
    true true true

/-- Speed clamp of drive: outputs below the minimum magnitude are
replaced by min_speed, above the maximum magnitude by max_speed. -/
def clampSpeed (out min_speed max_speed : ℚ) : ℚ :=
  if |out| < |min_speed| then min_speed
  else if |out| > |max_speed| then max_speed
  else out

/-- Speed error of drive: before the halfway point the code computes
distance_dg - (distance_dg - motors_dg), afterwards distance_dg - motors_dg. -/
def driveSpeedError (distance_dg motors_dg : ℚ) : ℚ :=
  if |motors_dg| < |distance_dg| / 2 then distance_dg - (distance_dg - motors_dg)
  else distance_dg - motors_dg

/-- Average of the two wheel-angle counters at iteration t. -/
def motorsAvg (env : RobotEnv) (t : ℕ) : ℚ :=
  (env.motorR t + env.motorL t) / 2

/-- Loop-carried state of drive. -/
structure DriveState where
  spid : PidController
  hpid : PidController
  movedEnough : Bool

/-- One executed iteration of the drive loop: the time index, the
wheel-angle average, the computed speed error, the two commanded wheel
speeds, whether the termination condition was consulted
(the moved_enough guard) and whether it fired. -/
structure DriveStep where
  t : ℕ
  motorsDg : ℚ
  speedErr : ℚ
  cmdL : ℚ
  cmdR : ℚ
  stopChecked : Bool
  stopFired : Bool
deriving DecidableEq, Repr

/-- One iteration body of the drive loop (robot.py lines 152-177):
read the wheel-angle average, select the speed-error formula and latch
moved_enough at the halfway point, run both PIDs, clamp the speed
output (the code writes the clamped value back into the controller's
output field), command the wheels, and, only when moved_enough holds,
evaluate the tolerance-band / stall termination condition.  Returns
the recorded step and the next loop-carried state. -/
def driveIter (env : RobotEnv) (distance_dg min_speed max_speed : ℚ)
    (hErr : ℕ → ℚ) (t : ℕ) (st : DriveState) : DriveStep × DriveState :=
  let motors_dg := motorsAvg env t
  let speed_error := driveSpeedError distance_dg motors_dg
  let me := if |motors_dg| < |distance_dg| / 2 then st.movedEnough else true
  let hpid := st.hpid.execute (hErr t)
  let spid := st.spid.execute speed_error
  let out := clampSpeed spid.output min_speed max_speed
  let spid2 := { spid with output := out }
  let stop := me &&
    (decide (|distance_dg| - 20 ≤ |motors_dg|) ||
      env.stallL t min_speed || env.stallR t min_speed)
  ({ t := t, motorsDg := motors_dg, speedErr := speed_error,
     cmdL := out, cmdR := out - hpid.output,
     stopChecked := me, stopFired := stop },
   { spid := spid2, hpid := hpid, movedEnough := me })

/-- Control loop of drive (robot.py lines 151-177): while the active
flag holds and the exit predicate is false, execute driveIter; the loop
ends after the first iteration whose termination condition fired. -/
def driveLoop (env : RobotEnv) (distance_dg min_speed max_speed : ℚ)
    (hErr : ℕ → ℚ) (exitE : ℕ → Bool) :
    ℕ → ℕ → DriveState → Option (List DriveStep)
  | 0, t, _ =>
    if !env.active t || exitE t then some [] else none
  | fuel + 1, t, st =>
    if !env.active t || exitE t then some []
    else
      let s := driveIter env distance_dg min_speed max_speed hErr t st
      if s.1.stopFired then some [s.1]
      else
        (driveLoop env distance_dg min_speed max_speed hErr exitE fuel (t + 1) s.2).map
          (s.1 :: ·)

/-- Motor commands issued by a list of drive-loop iterations. -/
def stepsEvents (steps : List DriveStep) : List Event :=
  steps.flatMap fun s => [Event.runL s.cmdL, Event.runR s.cmdR]

/-- drive of robot.py (lines 96-181): guarded by the active flag; resets
the gyro and both wheel counters, resets and configures both PIDs,
sign-extends the speed bounds with the sign of distance, resolves the
heading-error source, runs the loop, brakes both wheels, and finally
calls setup_control(run_control=True), restoring the two run PIDs to
their defaults. -/
def drive (env : RobotEnv) (r : MbRobot) (distance : ℚ)
    (orientation : OrientationArg) (min_speed max_speed : ℚ)
    (speed_kp speed_ki speed_kd heading_kp heading_ki heading_kd : Option ℚ)
    (exitE : ℕ → Bool) (fuel : ℕ) : Option (List Event × MbRobot) :=
  if !env.active 0 then some ([], r)
  else
    let spid := (r.RunSpeedControl.reset).settings speed_kp speed_ki speed_kd
    let hpid := (r.RunHeadingControl.reset).settings heading_kp heading_ki heading_kd
    let hErr : ℕ → ℚ :=
      match orientation with
      | .const c => fun t => c - env.gyro t
      | .dyn f => f
    let distance_dg := env.conv distance
    let minS := |min_speed| * (if distance < 0 then -1 else 1)
    let maxS := |max_speed| * (if distance < 0 then -1 else 1)
    (driveLoop env distance_dg minS maxS hErr exitE fuel 0
        { spid := spid, hpid := hpid, movedEnough := false }).map fun steps =>
      ([Event.gyroReset, Event.resetAngleL, Event.resetAngleR] ++
         stepsEvents steps ++ [Event.brakeL, Event.brakeR],
       setup_control r false true false)

/-- Control loop of turn (robot.py lines 80-89): while the active flag
holds and the exit predicate is false, feed angle minus the gyro
reading to the PID, command the wheels differentially, and clear the
moving flag once the error is inside the open (-2, 2) band.  Returns
the events, the PID as left by the loop and the final time. -/
def turnLoop (env : RobotEnv) (angle : ℚ) (exitE : ℕ → Bool) :
    ℕ → ℕ → PidController → Option (List Event × PidController × ℕ)
  | 0, t, pid =>
    if !env.active t || exitE t then some ([], pid, t) else none
  | fuel + 1, t, pid =>
    if !env.active t || exitE t then some ([], pid, t)
    else
      let error := angle - env.gyro t
      let pid2 := pid.execute error
      let evs := [Event.runL pid2.output, Event.runR (-pid2.output)]
      if -2 < error ∧ error < 2 then some (evs, pid2, t + 1)
      else
        (turnLoop env angle exitE fuel (t + 1) pid2).map
          fun x => (evs ++ x.1, x.2)

/-- turn of robot.py (lines 56-94): guarded by the active flag; resets
the gyro and the turn PID, applies the gain overrides, runs the loop,
holds both wheels and finally calls setup_control(turn_control=True),
restoring the turn PID to its default gains.  The source accepts
min_speed and max_speed arguments but never uses them; they are
omitted here. -/
def turn (env : RobotEnv) (r : MbRobot) (angle : ℚ)
    (speed_kp speed_ki speed_kd : Option ℚ) (exitE : ℕ → Bool) (fuel : ℕ) :
    Option (List Event × MbRobot × ℕ) :=
  if !env.active 0 then some ([], r, 0)
  else
    let pid0 := (r.TurnSpeedControl.reset).settings speed_kp speed_ki speed_kd
    (turnLoop env angle exitE fuel 0 pid0).map fun x =>
      (Event.gyroReset :: x.1 ++ [Event.holdL, Event.holdR],
       setup_control { r with TurnSpeedControl := x.2.1 } true false false,
       x.2.2)

/-- Python str.upper() as used by the colour dispatch, written over the
character list so that it evaluates: identical to ASCII upper-casing of
the string. -/
def pyUpper (s : String) : String := String.mk (s.data.map Char.toUpper)

/-- follow_line of robot.py (lines 183-237): guarded by the active flag;
resolves the target reflectance (calibration white value when absent),
resets and configures the line-follower PIDs, then calls drive with the
reflectance-difference orientation source and the line-follower gains,
and finally calls setup_control(line_follower_control=True).  The
nested drive call is recorded as a driveCall event followed by the
events of drive itself. -/
def follow_line (env : RobotEnv) (r : MbRobot) (sensorT : ℕ → ℚ) (distance : ℚ)
    (target_value : Option ℚ)
    (speed_kp speed_ki speed_kd heading_kp heading_ki heading_kd : Option ℚ)
    (exitE : ℕ → Bool) (fuel : ℕ) : Option (List Event × MbRobot) :=
  if !env.active 0 then some ([], r)
  else
    let tv := target_value.getD env.calib.1
    let lfs := (r.LineFollowerSpeedControl.reset).settings speed_kp speed_ki speed_kd
    let lfh := (r.LineFollowerHeadingControl.reset).settings heading_kp heading_ki heading_kd
    let r1 := { r with LineFollowerSpeedControl := lfs, LineFollowerHeadingControl := lfh }
    (drive env r1 distance (.dyn fun t => sensorT t - tv) 90 800
        (some lfs.kp) (some lfs.ki) (some lfs.kd)
        (some lfh.kp) (some lfh.ki) (some lfh.kd) exitE fuel).map fun x =>
      (Event.driveCall distance :: x.1, setup_control x.2 false false true)

/-- drive_to_line of robot.py (lines 239-294): guarded by the active
flag; defaults the sensor to the left colour sensor, reads the
calibration log, dispatches on color.upper() building the line exit
predicate (white: reflection above white value minus 7, black:
reflection below black value plus 5), raises on any other colour before
any motor, gyro or drive operation, and otherwise calls drive with that
predicate as exit_exec.  The nested drive call is recorded as a
driveCall event followed by the events of drive itself. -/
def drive_to_line (env : RobotEnv) (r : MbRobot) (distance : ℚ) (color : String)
    (sensorT : Option (ℕ → ℚ)) (orientation : OrientationArg)
    (speed_kp speed_ki speed_kd heading_kp heading_ki heading_kd : Option ℚ)
    (min_speed max_speed : ℚ) (fuel : ℕ) :
    Except String (Option (List Event × MbRobot)) :=
  if !env.active 0 then .ok (some ([], r))
  else
    let sensor := sensorT.getD env.reflL
    let colors := env.calib
    if pyUpper color = "WHITE" then
      .ok ((drive env r distance orientation min_speed max_speed
              speed_kp speed_ki speed_kd heading_kp heading_ki heading_kd
              (fun t => decide (colors.1 - 7 < sensor t)) fuel).map fun x =>
            (Event.driveCall distance :: x.1, x.2))
    else if pyUpper color = "BLACK" then
      .ok ((drive env r distance orientation min_speed max_speed
              speed_kp speed_ki speed_kd heading_kp heading_ki heading_kd
              (fun t => decide (sensor t < colors.2 + 5)) fuel).map fun x =>
            (Event.driveCall distance :: x.1, x.2))
    else .error "Invalid color for self.run_to_line()"

/-- Inner while-active loop of one square_line repetition (robot.py
lines 330-349): each iteration holds the left wheel whenever the left
predicate fires and latches left_ok, likewise for the right wheel, and
once both are latched performs the corrective drive nudge (repetition 0
only, recorded as a driveCall event) and breaks.  Returns the emitted
events and the time after the loop. -/
def squareInner (env : RobotEnv) (leftP rightP : ℕ → Bool) (speed : ℚ) (nudge : Bool) :
    ℕ → ℕ → Bool → Bool → Option (List Event × ℕ)
  | 0, t, _, _ => if !env.active t then some ([], t) else none
  | fuel + 1, t, left_ok, right_ok =>
    if !env.active t then some ([], t)
    else
      let lFire := leftP t
      let rFire := rightP t
      let holds := (if lFire then [Event.holdL] else []) ++
        (if rFire then [Event.holdR] else [])
      let lok := left_ok || lFire
      let rok := right_ok || rFire
      if lok && rok then
        let nudgeEvs :=
          if nudge then [Event.driveCall (if 0 < speed then (-5 : ℚ) else 5)] else []
        some (holds ++ nudgeEvs, t + 1)
      else
        (squareInner env leftP rightP speed nudge fuel (t + 1) lok rok).map
          fun x => (holds ++ x.1, x.2)

/-- Repetition loop of square_line (robot.py lines 329-355): two
repetitions, each starting both wheels at the signed speed and running
the inner convergence loop (the corrective nudge fires at the end of
repetition 0 only); after repetition 0 the code breaks out when the
active flag has gone false; finally both wheels are held. -/
def squareReps (env : RobotEnv) (leftP rightP : ℕ → Bool) (speed : ℚ) (fuel : ℕ) :
    Option (List Event) :=
  match squareInner env leftP rightP speed true fuel 0 false false with
  | none => none
  | some (es1, t1) =>
    let rep1 := Event.runL speed :: Event.runR speed :: es1
    if !env.active t1 then some (rep1 ++ [Event.holdL, Event.holdR])
    else
      match squareInner env leftP rightP speed false fuel t1 false false with
      | none => none
      | some (es2, _) =>
        let rep2 := Event.runL speed :: Event.runR speed :: es2
        some (rep1 ++ rep2 ++ [Event.holdL, Event.holdR])

/-- square_line of robot.py (lines 296-355): guarded by the active flag;
takes the speed magnitude signed by the forward argument, reads the
calibration log with the asymmetric margins (white minus 10, black plus
5), dispatches on color.upper() raising for any other colour before any
motor operation, and otherwise runs the two repetitions of squareReps.
The nested drive nudge is recorded as a driveCall event. -/
def square_line (env : RobotEnv) (forward : Bool) (speed0 : ℚ) (color : String)
    (fuel : ℕ) : Except String (Option (List Event)) :=
  if !env.active 0 then .ok (some [])
  else
    let speed := |speed0| * (if forward then 1 else -1)
    let white_value := env.calib.1 - 10
    let black_value := env.calib.2 + 5
    if pyUpper color = "WHITE" then
      .ok (squareReps env (fun t => decide (white_value < env.reflL t))
              (fun t => decide (white_value < env.reflR t)) speed fuel)
    else if pyUpper color = "BLACK" then
      .ok (squareReps env (fun t => decide (env.reflL t < black_value))
              (fun t => decide (env.reflR t < black_value)) speed fuel)
    else .error "Invalid color for Robot.square_line()"

/-- run_path of robot.py (lines 358-370), recorded at the level of the
drive and turn calls it issues: for i in range(len(path) - 1) it calls
run(path[i]) and, when i < len(path) - 2, turn(path[i+1]).  The bodies
of the nested calls are given by drive and turn above. -/
def run_path (path : List ℚ) : List Event :=
  (List.range (path.length - 1)).flatMap fun i =>
    Event.driveCall (path.getD i 0) ::
      (if i < path.length - 2 then [Event.turnCall (path.getD (i + 1) 0)] else [])

lemma execN_kp (c : PidController) (e : ℚ) : ∀ n, (c.execN e n).kp = c.kp
  | 0 => rfl
  | n + 1 => execN_kp c e n

lemma execN_ki (c : PidController) (e : ℚ) : ∀ n, (c.execN e n).ki = c.ki
  | 0 => rfl
  | n + 1 => execN_ki c e n

lemma execN_reset_integral (c : PidController) (e : ℚ) :
    ∀ n, ((c.reset).execN e n).integral = (n : ℚ) * e
  | 0 => by simp [PidController.execN, PidController.reset]
  | n + 1 => by
    rw [PidController.execN]
    show ((c.reset).execN e n).integral + e = ((n + 1 : ℕ) : ℚ) * e
    rw [execN_reset_integral c e n]
    push_cast
    ring

lemma execN_reset_prev (c : PidController) (e : ℚ) (n : ℕ) (hn : 1 ≤ n) :
    ((c.reset).execN e n).previous_error = e := by
  obtain ⟨m, rfl⟩ : ∃ m, n = m + 1 := ⟨n - 1, by omega⟩
  rw [PidController.execN]
  rfl

/-- C3: calling execute(e) n successive times on a freshly reset PID
controller leaves the integral accumulator equal to n*e, makes the
derivative term (error minus stored previous error) zero on every call
from the second onward, and makes the k-th call (k >= 2) return
gain_p*e + gain_i*k*e. -/
theorem C3_pid_constant_error (c : PidController) (e : ℚ) (n : ℕ) (_hn : 1 ≤ n) :
    ((c.reset).execN e n).integral = (n : ℚ) * e ∧
    (∀ k, 2 ≤ k → k ≤ n → e - ((c.reset).execN e (k - 1)).previous_error = 0) ∧
    (∀ k, 2 ≤ k → k ≤ n →
      ((c.reset).execN e k).output = c.kp * e + c.ki * ((k : ℚ) * e)) := by
  refine ⟨execN_reset_integral c e n, ?_, ?_⟩
  · intro k hk _
    rw [execN_reset_prev c e (k - 1) (by omega)]
    ring
  · intro k hk _
    obtain ⟨m, rfl⟩ : ∃ m, k = m + 1 := ⟨k - 1, by omega⟩
    rw [PidController.execN]
    show ((c.reset).execN e m).kp * e +
        ((c.reset).execN e m).ki * (((c.reset).execN e m).integral + e) +
        ((c.reset).execN e m).kd * (e - ((c.reset).execN e m).previous_error) = _
    rw [execN_kp, execN_ki, execN_reset_integral c e m,
      execN_reset_prev c e m (by omega)]
    show c.kp * e + c.ki * ((m : ℚ) * e + e) + _ * (e - e) = _
    push_cast
    ring

/-- Witness for C3 at the controller with gains (2, 1/2, 3), error 4
and two calls. -/
theorem C3_pid_constant_error_witness :
    1 ≤ 2 ∧
    ((((PidController.init 2 (1/2) 3).reset).execN 4 2).integral = ((2 : ℕ) : ℚ) * 4 ∧
      (∀ k, 2 ≤ k → k ≤ 2 →
        (4 : ℚ) - (((PidController.init 2 (1/2) 3).reset).execN 4 (k - 1)).previous_error = 0) ∧
      (∀ k, 2 ≤ k → k ≤ 2 →
        (((PidController.init 2 (1/2) 3).reset).execN 4 k).output =
          (PidController.init 2 (1/2) 3).kp * 4 +
            (PidController.init 2 (1/2) 3).ki * ((k : ℚ) * 4))) :=
  ⟨by norm_num, C3_pid_constant_error (PidController.init 2 (1/2) 3) 4 2 (by norm_num)⟩

/-- C6: in the first half of travel the error fed to the speed PID is
distance_dg - (distance_dg - motors_dg), which equals motors_dg; the
two expressions are equal for all rational inputs. -/
theorem C6_speed_error_identity :
    (∀ d m : ℚ, d - (d - m) = m) ∧
    ∀ d m : ℚ, |m| < |d| / 2 →
      driveSpeedError d m = d - (d - m) ∧ driveSpeedError d m = m := by
  refine ⟨fun d m => by ring, fun d m h => ?_⟩
  unfold driveSpeedError
  rw [if_pos h]
  exact ⟨rfl, by ring⟩

/-- Witness for C6 at distance_dg 1000 and motors_dg 3. -/
theorem C6_speed_error_identity_witness :
    |(3 : ℚ)| < |(1000 : ℚ)| / 2 ∧
    (driveSpeedError 1000 3 = 1000 - (1000 - 3) ∧ driveSpeedError 1000 3 = 3) :=
  ⟨by norm_num, C6_speed_error_identity.2 1000 3 (by norm_num)⟩

/-- C1: the actual drive/turn call sequence of run_path on the
5-element path [10, 90, 20, 45, 30].  The loop issues a drive call for
every index 0..3, so the turn angles 90 and 45 are also passed to
drive, the distance legs 20 and 45 are also passed to turn, and the
final distance leg 30 is never driven; the sequence differs from the
claimed alternation drive 10, turn 90, drive 20, turn 45, drive 30. -/
theorem C1_run_path_trace :
    run_path [10, 90, 20, 45, 30] =
      [Event.driveCall 10, Event.turnCall 90, Event.driveCall 90, Event.turnCall 20,
        Event.driveCall 20, Event.turnCall 45, Event.driveCall 45] ∧
    run_path [10, 90, 20, 45, 30] ≠
      [Event.driveCall 10, Event.turnCall 90, Event.driveCall 20, Event.turnCall 45,
        Event.driveCall 30] := by
  constructor
  · rfl
  · decide

lemma clampSpeed_abs_bounds (out minS maxS : ℚ) (h : |minS| ≤ |maxS|) :
    |minS| ≤ |clampSpeed out minS maxS| ∧ |clampSpeed out minS maxS| ≤ |maxS| := by
  unfold clampSpeed
  split_ifs with h1 h2
  · exact ⟨le_rfl, h⟩
  · exact ⟨h, le_rfl⟩
  · exact ⟨not_lt.1 h1, not_lt.1 h2⟩

lemma runL_mem_stepsEvents {steps : List DriveStep} {sp : ℚ}
    (h : Event.runL sp ∈ stepsEvents steps) : ∃ s ∈ steps, sp = s.cmdL := by
  unfold stepsEvents at h
  rw [List.mem_flatMap] at h
  obtain ⟨s, hs, hmem⟩ := h
  refine ⟨s, hs, ?_⟩
  simp only [List.mem_cons, List.not_mem_nil, or_false, Event.runL.injEq] at hmem
  rcases hmem with h1 | h1
  · exact h1
  · exact absurd h1 (by simp)

lemma driveLoop_cmdL (env : RobotEnv) (ddg minS maxS : ℚ) (hErr : ℕ → ℚ)
    (exitE : ℕ → Bool) :
    ∀ fuel t st steps, driveLoop env ddg minS maxS hErr exitE fuel t st = some steps →
      ∀ s ∈ steps, ∃ o, s.cmdL = clampSpeed o minS maxS := by
  intro fuel
  induction fuel with
  | zero =>
    intro t st steps h s hs
    rw [driveLoop] at h
    split at h
    · cases h
      simp at hs
    · simp at h
  | succ f ih =>
    intro t st steps h s hs
    rw [driveLoop] at h
    split at h
    · cases h
      simp at hs
    · dsimp only at h
      split at h
      · cases h
        simp only [List.mem_singleton] at hs
        subst hs
        exact ⟨(st.spid.execute (driveSpeedError ddg (motorsAvg env t))).output, rfl⟩
      · rw [Option.map_eq_some'] at h
        obtain ⟨rest, hrest, rfl⟩ := h
        rcases List.mem_cons.1 hs with rfl | hmem
        · exact ⟨(st.spid.execute (driveSpeedError ddg (motorsAvg env t))).output, rfl⟩
        · exact ih (t + 1) _ rest hrest s hmem

/-- C7: given 0 < |min_speed| <= |max_speed|, every left-wheel speed
command issued by a drive call lies within [|min_speed|, |max_speed|]
in magnitude; inside the call min_speed and max_speed are first
sign-extended with the sign of distance, which leaves their magnitudes
unchanged. -/
theorem C7_drive_speed_clamped (env : RobotEnv) (r : MbRobot) (distance : ℚ)
    (orientation : OrientationArg) (min_speed max_speed : ℚ)
    (speed_kp speed_ki speed_kd heading_kp heading_ki heading_kd : Option ℚ)
    (exitE : ℕ → Bool) (fuel : ℕ) (evs : List Event) (r2 : MbRobot)
    (_hmin : 0 < |min_speed|) (hminmax : |min_speed| ≤ |max_speed|)
    (h : drive env r distance orientation min_speed max_speed speed_kp speed_ki speed_kd
      heading_kp heading_ki heading_kd exitE fuel = some (evs, r2)) :
    ∀ sp, Event.runL sp ∈ evs → |min_speed| ≤ |sp| ∧ |sp| ≤ |max_speed| := by
  intro sp hsp
  unfold drive at h
  split at h
  · rw [Option.some.injEq, Prod.mk.injEq] at h
    obtain ⟨h1, _⟩ := h
    subst h1
    simp at hsp
  · dsimp only at h
    rw [Option.map_eq_some'] at h
    obtain ⟨steps, hsteps, heq⟩ := h
    rw [Prod.mk.injEq] at heq
    obtain ⟨h1, _⟩ := heq
    subst h1
    simp only [List.mem_append, List.mem_cons, List.not_mem_nil, or_false] at hsp
    have hmemL : Event.runL sp ∈ stepsEvents steps := by
      rcases hsp with (h1 | h1) | h1
      · simp at h1
      · exact h1
      · simp at h1
    obtain ⟨s, hs, rfl⟩ := runL_mem_stepsEvents hmemL
    obtain ⟨o, ho⟩ := driveLoop_cmdL env _ _ _ _ _ fuel 0 _ steps hsteps s hs
    rw [ho]
    have hme : |(|min_speed| * (if distance < 0 then (-1 : ℚ) else 1))| = |min_speed| := by
      split_ifs <;> simp [abs_mul, abs_abs]
    have hMe : |(|max_speed| * (if distance < 0 then (-1 : ℚ) else 1))| = |max_speed| := by
      split_ifs <;> simp [abs_mul, abs_abs]
    have hb := clampSpeed_abs_bounds o
      (|min_speed| * (if distance < 0 then (-1 : ℚ) else 1))
      (|max_speed| * (if distance < 0 then (-1 : ℚ) else 1))
      (by rw [hme, hMe]; exact hminmax)
    rw [hme, hMe] at hb
    exact hb

/-- Environment for the C7 witness: both wheel counters read 990 from
the start, no stalls, active throughout, conversion 100 degrees per
unit. -/
def envW7 : RobotEnv :=
  { gyro := fun _ => 0, motorL := fun _ => 990, motorR := fun _ => 990,
    stallL := fun _ _ => false, stallR := fun _ _ => false,
    reflL := fun _ => 0, reflR := fun _ => 0, calib := (0, 0),
    conv := fun d => 100 * d, active := fun _ => true }

/-- Witness for C7: a drive call over distance 10 (1000 degrees) that
terminates after one iteration; the single left-wheel command is the
clamped minimum 90. -/
theorem C7_drive_speed_clamped_witness :
    0 < |(90 : ℚ)| ∧ |(90 : ℚ)| ≤ |(800 : ℚ)| ∧
    drive envW7 MbRobot.start 10 (.const 0) 90 800 none none none none none none
        (fun _ => false) 5 =
      some ([Event.gyroReset, Event.resetAngleL, Event.resetAngleR,
        Event.runL 90, Event.runR 90, Event.brakeL, Event.brakeR], MbRobot.start) ∧
    ∀ sp, Event.runL sp ∈ [Event.gyroReset, Event.resetAngleL, Event.resetAngleR,
        Event.runL 90, Event.runR 90, Event.brakeL, Event.brakeR] →
      |(90 : ℚ)| ≤ |sp| ∧ |sp| ≤ |(800 : ℚ)| := by
  have h : drive envW7 MbRobot.start 10 (.const 0) 90 800 none none none none none none
      (fun _ => false) 5 =
    some ([Event.gyroReset, Event.resetAngleL, Event.resetAngleR,
      Event.runL 90, Event.runR 90, Event.brakeL, Event.brakeR], MbRobot.start) := by
    norm_num [drive, driveLoop, driveIter, stepsEvents, motorsAvg, driveSpeedError,
      clampSpeed, MbRobot.start, setup_control, envW7, abs_of_nonneg, abs_of_nonpos,
      PidController.init, PidController.reset, PidController.settings,
      PidController.execute]
  exact ⟨by norm_num, by norm_num, h,
    C7_drive_speed_clamped envW7 MbRobot.start 10 (.const 0) 90 800 none none none
      none none none (fun _ => false) 5 _ MbRobot.start
      (by norm_num) (by norm_num) h⟩

/-- Environment for the C2 theorems: gyro constantly zero, active
throughout. -/
def envC2 : RobotEnv :=
  { gyro := fun _ => 0, motorL := fun _ => 0, motorR := fun _ => 0,
    stallL := fun _ _ => false, stallR := fun _ _ => false,
    reflL := fun _ => 0, reflR := fun _ => 0, calib := (0, 0),
    conv := fun d => 100 * d, active := fun _ => true }

/-- Counterexample to C2: a turn call to angle 0 with the proportional
gain overridden to 10 completes (the gyro error 0 is inside the
tolerance band on the first iteration), the gains in effect during the
call had kp = 10, yet the gains observable after the call are the
defaults (6, 0.15, 0), because turn ends with
setup_control(turn_control=True). -/
theorem C2_turn_gains_counterexample :
    (turn envC2 MbRobot.start 0 (some 10) none none (fun _ => false) 3).map
        (fun x => (x.2.1.TurnSpeedControl.kp, x.2.1.TurnSpeedControl.ki,
          x.2.1.TurnSpeedControl.kd)) = some (6, 0.15, 0) ∧
    ((MbRobot.start.TurnSpeedControl.reset).settings (some 10) none none).kp = 10 ∧
    (6 : ℚ) ≠ 10 := by
  refine ⟨?_, ?_, by norm_num⟩
  · norm_num [turn, turnLoop, MbRobot.start, setup_control, envC2,
      PidController.init, PidController.reset, PidController.settings,
      PidController.execute]
  · norm_num [MbRobot.start, setup_control, PidController.init, PidController.reset,
      PidController.settings]

/-- C2 amended: every turn call that starts active and completes leaves
the Turn speed PID re-instantiated at the default gains (6, 0.15, 0)
via the trailing setup_control(turn_control=True); overridden gains do
not persist past the call. -/
theorem C2_turn_restores_default_gains (env : RobotEnv) (r : MbRobot) (angle : ℚ)
    (speed_kp speed_ki speed_kd : Option ℚ) (exitE : ℕ → Bool) (fuel : ℕ)
    (evs : List Event) (r2 : MbRobot) (tf : ℕ)
    (hact : env.active 0 = true)
    (h : turn env r angle speed_kp speed_ki speed_kd exitE fuel = some (evs, r2, tf)) :
    r2.TurnSpeedControl = PidController.init 6 0.15 0 := by
  unfold turn at h
  rw [hact] at h
  simp only [Bool.not_true] at h
  rw [if_neg (by simp)] at h
  rw [Option.map_eq_some'] at h
  obtain ⟨x, _, heq⟩ := h
  have h2 := congrArg (fun p => p.2.1) heq
  simp only at h2
  rw [← h2]
  rfl

/-- Witness for C2 amended: a plain turn call to angle 0 on the fresh
robot completes in one iteration and leaves the default turn gains. -/
theorem C2_turn_restores_default_gains_witness :
    envC2.active 0 = true ∧
    turn envC2 MbRobot.start 0 none none none (fun _ => false) 2 =
      some ([Event.gyroReset, Event.runL 0, Event.runR 0, Event.holdL, Event.holdR],
        MbRobot.start, 1) ∧
    MbRobot.start.TurnSpeedControl = PidController.init 6 0.15 0 := by
  have h : turn envC2 MbRobot.start 0 none none none (fun _ => false) 2 =
      some ([Event.gyroReset, Event.runL 0, Event.runR 0, Event.holdL, Event.holdR],
        MbRobot.start, 1) := by
    norm_num [turn, turnLoop, MbRobot.start, setup_control, envC2,
      PidController.init, PidController.reset, PidController.settings,
      PidController.execute]
  exact ⟨rfl, h,
    C2_turn_restores_default_gains envC2 MbRobot.start 0 none none none (fun _ => false) 2
      [Event.gyroReset, Event.runL 0, Event.runR 0, Event.holdL, Event.holdR]
      MbRobot.start 1 rfl h⟩

/-- C4: with the active flag true, drive_to_line and square_line raise
exactly when color.upper() is neither WHITE nor BLACK, and on that
error path the result is the bare error value: the colour dispatch
happens before any motor, gyro or drive operation, so none is
recorded. -/
theorem C4_invalid_color_iff (env : RobotEnv) (r : MbRobot) (distance : ℚ)
    (color : String) (sensorT : Option (ℕ → ℚ)) (orientation : OrientationArg)
    (speed_kp speed_ki speed_kd heading_kp heading_ki heading_kd : Option ℚ)
    (min_speed max_speed : ℚ) (fuel : ℕ) (forward : Bool) (speed0 : ℚ) (fuel2 : ℕ)
    (hact : env.active 0 = true) :
    ((∃ msg, drive_to_line env r distance color sensorT orientation speed_kp speed_ki
        speed_kd heading_kp heading_ki heading_kd min_speed max_speed fuel =
          Except.error msg) ↔
      ¬(pyUpper color = "WHITE" ∨ pyUpper color = "BLACK")) ∧
    ((∃ msg, square_line env forward speed0 color fuel2 = Except.error msg) ↔
      ¬(pyUpper color = "WHITE" ∨ pyUpper color = "BLACK")) ∧
    (¬(pyUpper color = "WHITE" ∨ pyUpper color = "BLACK") →
      drive_to_line env r distance color sensorT orientation speed_kp speed_ki speed_kd
          heading_kp heading_ki heading_kd min_speed max_speed fuel =
        Except.error "Invalid color for self.run_to_line()" ∧
      square_line env forward speed0 color fuel2 =
        Except.error "Invalid color for Robot.square_line()") := by
  refine ⟨?_, ?_, ?_⟩ <;>
    by_cases hw : pyUpper color = "WHITE" <;>
      by_cases hb : pyUpper color = "BLACK" <;>
        simp [drive_to_line, square_line, hact, hw, hb]

/-- Environment for the C4 witness. -/
def envC4 : RobotEnv :=
  { gyro := fun _ => 0, motorL := fun _ => 0, motorR := fun _ => 0,
    stallL := fun _ _ => false, stallR := fun _ _ => false,
    reflL := fun _ => 0, reflR := fun _ => 0, calib := (50, 20),
    conv := fun d => 100 * d, active := fun _ => true }

/-- Witness for C4 with the unrecognized colour token red. -/
theorem C4_invalid_color_iff_witness :
    envC4.active 0 = true ∧
    (((∃ msg, drive_to_line envC4 MbRobot.start 10 "red" none (.const 0) none none
        none none none none 90 800 3 = Except.error msg) ↔
      ¬(pyUpper "red" = "WHITE" ∨ pyUpper "red" = "BLACK")) ∧
    ((∃ msg, square_line envC4 true 170 "red" 3 = Except.error msg) ↔
      ¬(pyUpper "red" = "WHITE" ∨ pyUpper "red" = "BLACK")) ∧
    (¬(pyUpper "red" = "WHITE" ∨ pyUpper "red" = "BLACK") →
      drive_to_line envC4 MbRobot.start 10 "red" none (.const 0) none none none none
          none none 90 800 3 =
        Except.error "Invalid color for self.run_to_line()" ∧
      square_line envC4 true 170 "red" 3 =
        Except.error "Invalid color for Robot.square_line()")) :=
  ⟨rfl, C4_invalid_color_iff envC4 MbRobot.start 10 "red" none (.const 0) none none
    none none none none 90 800 3 true 170 3 rfl⟩

/-- C10: with the active flag false, drive_to_line and square_line
return immediately with no events and no error, for every colour
token: the invalid-colour check is nested inside the active-flag
guard. -/
theorem C10_inactive_no_color_error (env : RobotEnv) (r : MbRobot) (distance : ℚ)
    (color : String) (sensorT : Option (ℕ → ℚ)) (orientation : OrientationArg)
    (speed_kp speed_ki speed_kd heading_kp heading_ki heading_kd : Option ℚ)
    (min_speed max_speed : ℚ) (fuel : ℕ) (forward : Bool) (speed0 : ℚ) (fuel2 : ℕ)
    (hact : env.active 0 = false) :
    drive_to_line env r distance color sensorT orientation speed_kp speed_ki speed_kd
        heading_kp heading_ki heading_kd min_speed max_speed fuel =
      Except.ok (some ([], r)) ∧
    square_line env forward speed0 color fuel2 = Except.ok (some []) := by
  constructor <;> simp [drive_to_line, square_line, hact]

/-- Environment for the C10 witness: emergency stop already latched. -/
def envC10 : RobotEnv :=
  { gyro := fun _ => 0, motorL := fun _ => 0, motorR := fun _ => 0,
    stallL := fun _ _ => false, stallR := fun _ _ => false,
    reflL := fun _ => 0, reflR := fun _ => 0, calib := (50, 20),
    conv := fun d => 100 * d, active := fun _ => false }

/-- Witness for C10 with the unrecognized colour token purple. -/
theorem C10_inactive_no_color_error_witness :
    envC10.active 0 = false ∧
    (drive_to_line envC10 MbRobot.start 10 "purple" none (.const 0) none none none
        none none none 90 800 3 = Except.ok (some ([], MbRobot.start)) ∧
      square_line envC10 true 170 "purple" 3 = Except.ok (some [])) :=
  ⟨rfl, C10_inactive_no_color_error envC10 MbRobot.start 10 "purple" none (.const 0)
    none none none none none none 90 800 3 true 170 3 rfl⟩

lemma mem_single_ite {b : Bool} {ev e : Event}
    (h : e ∈ if b then [ev] else []) : e = ev := by
  split at h
  · simpa using h
  · simp at h

lemma squareInner_shape (env : RobotEnv) (leftP rightP : ℕ → Bool) (speed : ℚ)
    (nudge : Bool) (hact : ∀ t, env.active t = true) :
    ∀ fuel t lok rok es tf,
      squareInner env leftP rightP speed nudge fuel t lok rok = some (es, tf) →
      ∃ pre, es = pre ++
          (if nudge then [Event.driveCall (if 0 < speed then (-5 : ℚ) else 5)] else []) ∧
        ∀ e ∈ pre, e = Event.holdL ∨ e = Event.holdR := by
  intro fuel
  induction fuel with
  | zero =>
    intro t lok rok es tf h
    rw [squareInner, hact t] at h
    simp at h
  | succ f ih =>
    intro t lok rok es tf h
    rw [squareInner, hact t] at h
    simp only [Bool.not_true] at h
    rw [if_neg (by simp)] at h
    split at h
    · rw [Option.some.injEq, Prod.mk.injEq] at h
      obtain ⟨h1, _⟩ := h
      refine ⟨(if leftP t then [Event.holdL] else []) ++
        (if rightP t then [Event.holdR] else []), ?_, ?_⟩
      · rw [← h1, List.append_assoc]
      · intro e he
        rw [List.mem_append] at he
        rcases he with he | he
        · exact Or.inl (mem_single_ite he)
        · exact Or.inr (mem_single_ite he)
    · rw [Option.map_eq_some'] at h
      obtain ⟨⟨es2, tf2⟩, hrec, heq⟩ := h
      obtain ⟨pre, hpre, hmem⟩ := ih (t + 1) _ _ es2 tf2 hrec
      rw [Prod.mk.injEq] at heq
      obtain ⟨h1, _⟩ := heq
      refine ⟨((if leftP t then [Event.holdL] else []) ++
        (if rightP t then [Event.holdR] else [])) ++ pre, ?_, ?_⟩
      · rw [← h1]
        dsimp only
        rw [hpre]
        simp [List.append_assoc]
      · intro e he
        rw [List.mem_append, List.mem_append] at he
        rcases he with (he | he) | he
        · exact Or.inl (mem_single_ite he)
        · exact Or.inr (mem_single_ite he)
        · exact hmem e he

lemma squareReps_shape (env : RobotEnv) (leftP rightP : ℕ → Bool) (speed : ℚ)
    (fuel : ℕ) (evs : List Event) (hact : ∀ t, env.active t = true)
    (h : squareReps env leftP rightP speed fuel = some evs) :
    ∃ pre1 pre2 : List Event,
      (∀ e ∈ pre1, e = Event.holdL ∨ e = Event.holdR) ∧
      (∀ e ∈ pre2, e = Event.holdL ∨ e = Event.holdR) ∧
      evs = Event.runL speed :: Event.runR speed ::
        (pre1 ++ Event.driveCall (if 0 < speed then (-5 : ℚ) else 5) ::
          Event.runL speed :: Event.runR speed ::
            (pre2 ++ [Event.holdL, Event.holdR])) := by
  unfold squareReps at h
  rcases hinner1 : squareInner env leftP rightP speed true fuel 0 false false with
    _ | ⟨es1, t1⟩
  · rw [hinner1] at h
    simp at h
  · rw [hinner1] at h
    dsimp only at h
    rw [hact t1] at h
    simp only [Bool.not_true] at h
    rw [if_neg (by simp)] at h
    rcases hinner2 : squareInner env leftP rightP speed false fuel t1 false false with
      _ | ⟨es2, t2⟩
    · rw [hinner2] at h
      simp at h
    · rw [hinner2] at h
      dsimp only at h
      rw [Option.some.injEq] at h
      obtain ⟨pre1, hpre1, hmem1⟩ :=
        squareInner_shape env leftP rightP speed true hact fuel 0 false false es1 t1 hinner1
      obtain ⟨pre2, hpre2, hmem2⟩ :=
        squareInner_shape env leftP rightP speed false hact fuel t1 false false es2 t2 hinner2
      rw [if_pos rfl] at hpre1
      rw [if_neg (by simp)] at hpre2
      rw [List.append_nil] at hpre2
      refine ⟨pre1, pre2, hmem1, hmem2, ?_⟩
      rw [← h, hpre1, hpre2]
      simp [List.append_assoc]

/-- C8: every square_line call that returns normally with the active
flag true runs exactly two repetitions (two runL/runR wheel starts at
the signed speed), with exactly one corrective drive nudge of magnitude
5 and sign opposite to the approach speed recorded between the first
and the second repetition, and both wheels held at the end; apart from
the shown events the repetitions only hold individual wheels. -/
theorem C8_square_line_two_reps_one_nudge (env : RobotEnv) (forward : Bool)
    (speed0 : ℚ) (color : String) (fuel : ℕ) (evs : List Event)
    (hact : ∀ t, env.active t = true)
    (h : square_line env forward speed0 color fuel = Except.ok (some evs)) :
    ∃ s n : ℚ, ∃ pre1 pre2 : List Event,
      s = |speed0| * (if forward then 1 else -1) ∧
      n = (if 0 < s then (-5 : ℚ) else 5) ∧
      |n| = 5 ∧ (0 < s → n = -5) ∧ (s < 0 → n = 5) ∧
      (∀ e ∈ pre1, e = Event.holdL ∨ e = Event.holdR) ∧
      (∀ e ∈ pre2, e = Event.holdL ∨ e = Event.holdR) ∧
      evs = Event.runL s :: Event.runR s ::
        (pre1 ++ Event.driveCall n :: Event.runL s :: Event.runR s ::
          (pre2 ++ [Event.holdL, Event.holdR])) := by
  have hs5 : |(if 0 < |speed0| * (if forward then (1 : ℚ) else -1) then (-5 : ℚ) else 5)|
      = 5 := by
    split_ifs <;> norm_num
  have hpos : 0 < |speed0| * (if forward then (1 : ℚ) else -1) →
      (if 0 < |speed0| * (if forward then (1 : ℚ) else -1) then (-5 : ℚ) else 5) = -5 :=
    fun hp => if_pos hp
  have hneg : |speed0| * (if forward then (1 : ℚ) else -1) < 0 →
      (if 0 < |speed0| * (if forward then (1 : ℚ) else -1) then (-5 : ℚ) else 5) = 5 :=
    fun hn => if_neg (fun hp => absurd hn (asymm hp))
  unfold square_line at h
  rw [hact 0] at h
  simp only [Bool.not_true] at h
  rw [if_neg (by simp)] at h
  refine ⟨|speed0| * (if forward then 1 else -1),
    if 0 < |speed0| * (if forward then (1 : ℚ) else -1) then (-5 : ℚ) else 5, ?_⟩
  split at h
  · rw [Except.ok.injEq] at h
    obtain ⟨pre1, pre2, hm1, hm2, heq⟩ := squareReps_shape env _ _ _ fuel evs hact h
    exact ⟨pre1, pre2, rfl, rfl, hs5, hpos, hneg, hm1, hm2, heq⟩
  · split at h
    · rw [Except.ok.injEq] at h
      obtain ⟨pre1, pre2, hm1, hm2, heq⟩ := squareReps_shape env _ _ _ fuel evs hact h
      exact ⟨pre1, pre2, rfl, rfl, hs5, hpos, hneg, hm1, hm2, heq⟩
    · simp at h

/-- Environment for the C8 witness: calibration (50, 20); the right
sensor crosses the white line at iteration 1 and the left at
iteration 2, then both stay on it. -/
def envC8 : RobotEnv :=
  { gyro := fun _ => 0, motorL := fun _ => 0, motorR := fun _ => 0,
    stallL := fun _ _ => false, stallR := fun _ _ => false,
    reflL := fun t => if t < 2 then 0 else 100,
    reflR := fun t => if t < 1 then 0 else 100,
    calib := (50, 20), conv := fun d => 100 * d, active := fun _ => true }

/-- Witness for C8: a forward white square_line at speed 170 whose two
repetitions converge; the trace shows the two wheel starts, the single
nudge drive call of -5 between them, and the final holds. -/
theorem C8_square_line_two_reps_one_nudge_witness :
    (∀ t, envC8.active t = true) ∧
    square_line envC8 true 170 "white" 6 =
      Except.ok (some [Event.runL 170, Event.runR 170, Event.holdR, Event.holdL,
        Event.holdR, Event.driveCall (-5), Event.runL 170, Event.runR 170,
        Event.holdL, Event.holdR, Event.holdL, Event.holdR]) ∧
    (∃ s n : ℚ, ∃ pre1 pre2 : List Event,
      s = |(170 : ℚ)| * (if true then 1 else -1) ∧
      n = (if 0 < s then (-5 : ℚ) else 5) ∧
      |n| = 5 ∧ (0 < s → n = -5) ∧ (s < 0 → n = 5) ∧
      (∀ e ∈ pre1, e = Event.holdL ∨ e = Event.holdR) ∧
      (∀ e ∈ pre2, e = Event.holdL ∨ e = Event.holdR) ∧
      [Event.runL 170, Event.runR 170, Event.holdR, Event.holdL,
        Event.holdR, Event.driveCall (-5), Event.runL 170, Event.runR 170,
        Event.holdL, Event.holdR, Event.holdL, Event.holdR] =
        Event.runL s :: Event.runR s ::
          (pre1 ++ Event.driveCall n :: Event.runL s :: Event.runR s ::
            (pre2 ++ [Event.holdL, Event.holdR]))) := by
  have hw : pyUpper "white" = "WHITE" := by decide
  have h : square_line envC8 true 170 "white" 6 =
      Except.ok (some [Event.runL 170, Event.runR 170, Event.holdR, Event.holdL,
        Event.holdR, Event.driveCall (-5), Event.runL 170, Event.runR 170,
        Event.holdL, Event.holdR, Event.holdL, Event.holdR]) := by
    norm_num [square_line, squareReps, squareInner, envC8, hw,
      abs_of_nonneg, abs_of_nonpos]
  exact ⟨fun t => rfl, h,
    C8_square_line_two_reps_one_nudge envC8 true 170 "white" 6 _ (fun t => rfl) h⟩

lemma driveIter_fst_t (env : RobotEnv) (ddg mS MS : ℚ) (hErr : ℕ → ℚ) (t : ℕ)
    (st : DriveState) : (driveIter env ddg mS MS hErr t st).1.t = t := rfl

lemma driveIter_fst_motorsDg (env : RobotEnv) (ddg mS MS : ℚ) (hErr : ℕ → ℚ) (t : ℕ)
    (st : DriveState) : (driveIter env ddg mS MS hErr t st).1.motorsDg = motorsAvg env t :=
  rfl

lemma driveIter_fst_stopChecked (env : RobotEnv) (ddg mS MS : ℚ) (hErr : ℕ → ℚ) (t : ℕ)
    (st : DriveState) :
    (driveIter env ddg mS MS hErr t st).1.stopChecked =
      (st.movedEnough || decide (|ddg| / 2 ≤ |motorsAvg env t|)) := by
  show (if |motorsAvg env t| < |ddg| / 2 then st.movedEnough else true) = _
  by_cases hc : |motorsAvg env t| < |ddg| / 2
  · rw [if_pos hc, decide_eq_false (not_le.2 hc), Bool.or_false]
  · rw [if_neg hc, decide_eq_true (not_lt.1 hc), Bool.or_true]

lemma driveIter_fst_stopFired (env : RobotEnv) (ddg mS MS : ℚ) (hErr : ℕ → ℚ) (t : ℕ)
    (st : DriveState) :
    (driveIter env ddg mS MS hErr t st).1.stopFired =
      ((driveIter env ddg mS MS hErr t st).1.stopChecked &&
        (decide (|ddg| - 20 ≤ |motorsAvg env t|) ||
          env.stallL t mS || env.stallR t mS)) := rfl

lemma driveIter_snd_movedEnough (env : RobotEnv) (ddg mS MS : ℚ) (hErr : ℕ → ℚ) (t : ℕ)
    (st : DriveState) :
    (driveIter env ddg mS MS hErr t st).2.movedEnough =
      (driveIter env ddg mS MS hErr t st).1.stopChecked := rfl

lemma driveLoop_char (env : RobotEnv) (ddg minS maxS : ℚ) (hErr : ℕ → ℚ)
    (exitE : ℕ → Bool) (hact : ∀ t, env.active t = true) (hex : ∀ t, exitE t = false) :
    ∀ fuel t st steps,
      driveLoop env ddg minS maxS hErr exitE fuel t st = some steps →
      steps ≠ [] ∧
      ∀ i (hi : i < steps.length),
        steps[i].t = t + i ∧
        steps[i].motorsDg = motorsAvg env (t + i) ∧
        (steps[i].stopChecked =
          (st.movedEnough ||
            (List.range (i + 1)).any fun j => decide (|ddg| / 2 ≤ |motorsAvg env (t + j)|))) ∧
        (steps[i].stopFired =
          (steps[i].stopChecked &&
            (decide (|ddg| - 20 ≤ |motorsAvg env (t + i)|) ||
              env.stallL (t + i) minS || env.stallR (t + i) minS))) ∧
        (steps[i].stopFired = true ↔ i = steps.length - 1) := by
  intro fuel
  induction fuel with
  | zero =>
    intro t st steps h
    rw [driveLoop, hact t, hex t] at h
    simp at h
  | succ f ih =>
    intro t st steps h
    rw [driveLoop] at h
    have hcond : ¬((!env.active t || exitE t) = true) := by
      rw [hact t, hex t]
      simp
    rw [if_neg hcond] at h
    dsimp only at h
    split at h
    case isTrue hstop =>
      rw [Option.some.injEq] at h
      subst h
      refine ⟨by simp, ?_⟩
      intro i hi
      have hi0 : i = 0 := by
        simp only [List.length_cons, List.length_nil] at hi
        omega
      subst hi0
      simp only [List.getElem_cons_zero]
      refine ⟨driveIter_fst_t env ddg minS maxS hErr t st,
        driveIter_fst_motorsDg env ddg minS maxS hErr t st, ?_,
        driveIter_fst_stopFired env ddg minS maxS hErr t st, ?_⟩
      · rw [driveIter_fst_stopChecked]
        simp [List.range_succ]
      · simp [hstop]
    case isFalse hstop =>
      rw [Option.map_eq_some'] at h
      obtain ⟨rest, hrest, heq⟩ := h
      subst heq
      obtain ⟨hne, hchar⟩ := ih (t + 1) _ rest hrest
      have hlen : 0 < rest.length := List.length_pos.2 hne
      have hf : (driveIter env ddg minS maxS hErr t st).1.stopFired = false := by
        revert hstop
        cases (driveIter env ddg minS maxS hErr t st).1.stopFired <;> simp
      refine ⟨by simp, ?_⟩
      intro i hi
      cases i with
      | zero =>
        simp only [List.getElem_cons_zero]
        refine ⟨driveIter_fst_t env ddg minS maxS hErr t st,
          driveIter_fst_motorsDg env ddg minS maxS hErr t st, ?_,
          driveIter_fst_stopFired env ddg minS maxS hErr t st, ?_⟩
        · rw [driveIter_fst_stopChecked]
          simp [List.range_succ]
        · simp only [hf, List.length_cons]
          constructor
          · intro hcontr
            cases hcontr
          · intro h0
            exfalso
            omega
      | succ i2 =>
        have hi2 : i2 < rest.length := by
          simp only [List.length_cons] at hi
          omega
        simp only [List.getElem_cons_succ]
        obtain ⟨c1, c2, c3, c4, c5⟩ := hchar i2 hi2
        have hidx : ∀ j : ℕ, t + 1 + j = t + (j + 1) := fun j => by omega
        refine ⟨?_, ?_, ?_, ?_, ?_⟩
        · rw [c1]
          omega
        · rw [c2, hidx i2]
        · rw [c3, driveIter_snd_movedEnough, driveIter_fst_stopChecked]
          conv_rhs => rw [List.range_succ_eq_map]
          simp only [List.any_cons, List.any_map, Function.comp_def, Nat.add_zero]
          rw [Bool.or_assoc]
          have harr : (fun j => decide (|ddg| / 2 ≤ |motorsAvg env (t + 1 + j)|)) =
              (fun j => decide (|ddg| / 2 ≤ |motorsAvg env (t + Nat.succ j)|)) := by
            funext j
            rw [hidx j]
          rw [harr]
        · rw [c4, hidx i2]
        · rw [c5]
          simp only [List.length_cons]
          constructor
          · intro hh
            omega
          · intro hh
            omega

/-- Environment for the C5 counterexample: the wheel average reads 600
(past halfway of 1000) at iteration 0 and regresses to 400 (below
halfway) at iteration 1, where the left wheel reports a stall. -/
def envC5 : RobotEnv :=
  { gyro := fun _ => 0,
    motorL := fun t => if t = 0 then 600 else 400,
    motorR := fun t => if t = 0 then 600 else 400,
    stallL := fun t _ => decide (t = 1), stallR := fun _ _ => false,
    reflL := fun _ => 0, reflR := fun _ => 0, calib := (0, 0),
    conv := fun d => 100 * d, active := fun _ => true }

/-- Counterexample to C5: in a drive loop with distance_dg 1000, the
iteration at time 1 reads |motors_dg| = 400 < 500 = |distance_dg|/2 and
nevertheless evaluates the stop condition (stopChecked is true, the
latched moved_enough) — the stall there even terminates the loop. -/
theorem C5_stop_check_below_half_counterexample :
    (driveLoop envC5 1000 90 800 (fun _ => 0) (fun _ => false) 5 0
        { spid := PidController.init 3 0.17 0, hpid := PidController.init 15 0.1 0,
          movedEnough := false }).map
        (List.map fun s => (s.t, s.motorsDg, s.stopChecked, s.stopFired)) =
      some [(0, 600, true, false), (1, 400, true, true)] ∧
    |(400 : ℚ)| < |(1000 : ℚ)| / 2 := by
  constructor
  · norm_num [driveLoop, driveIter, motorsAvg, driveSpeedError, clampSpeed, envC5,
      PidController.init, PidController.execute, abs_of_nonneg, abs_of_nonpos]
  · norm_num

/-- C5 amended: in a drive loop that starts before the halfway point
(moved_enough false) and runs with the active flag true and no exit
predicate, the stop condition is consulted at exactly those iterations
i such that some iteration j <= i had |motors_dg| >= |distance_dg|/2
(the latched moved_enough), the condition fired at i exactly when it
was consulted and |motors_dg| >= |distance_dg| - 20 or either wheel
stalls there, and the loop ends at the first iteration where it
fires. -/
theorem C5_latched_stop_evaluation (env : RobotEnv) (ddg minS maxS : ℚ)
    (hErr : ℕ → ℚ) (exitE : ℕ → Bool) (spid hpid : PidController) (fuel : ℕ)
    (steps : List DriveStep)
    (hact : ∀ t, env.active t = true) (hex : ∀ t, exitE t = false)
    (h : driveLoop env ddg minS maxS hErr exitE fuel 0
      { spid := spid, hpid := hpid, movedEnough := false } = some steps) :
    steps ≠ [] ∧
    ∀ i (hi : i < steps.length),
      steps[i].motorsDg = motorsAvg env i ∧
      (steps[i].stopChecked =
        (List.range (i + 1)).any fun j => decide (|ddg| / 2 ≤ |motorsAvg env j|)) ∧
      (steps[i].stopFired =
        (steps[i].stopChecked &&
          (decide (|ddg| - 20 ≤ |motorsAvg env i|) ||
            env.stallL i minS || env.stallR i minS))) ∧
      (steps[i].stopFired = true ↔ i = steps.length - 1) := by
  obtain ⟨hne, hchar⟩ :=
    driveLoop_char env ddg minS maxS hErr exitE hact hex fuel 0
      { spid := spid, hpid := hpid, movedEnough := false } steps h
  refine ⟨hne, fun i hi => ?_⟩
  obtain ⟨_, c2, c3, c4, c5⟩ := hchar i hi
  simp only [Nat.zero_add] at c2 c3 c4
  refine ⟨c2, ?_, c4, c5⟩
  rw [c3]
  simp

/-- Environment for the C5 witness: the wheel average reads 600 at
iteration 0 and 1000 from iteration 1 on, with no stalls. -/
def envW5 : RobotEnv :=
  { gyro := fun _ => 0,
    motorL := fun t => if t = 0 then 600 else 1000,
    motorR := fun t => if t = 0 then 600 else 1000,
    stallL := fun _ _ => false, stallR := fun _ _ => false,
    reflL := fun _ => 0, reflR := fun _ => 0, calib := (0, 0),
    conv := fun d => 100 * d, active := fun _ => true }

/-- Steps of the C5 witness run. -/
def w5steps : List DriveStep :=
  [{ t := 0, motorsDg := 600, speedErr := 400, cmdL := 90, cmdR := 90,
     stopChecked := true, stopFired := false },
   { t := 1, motorsDg := 1000, speedErr := 0, cmdL := 90, cmdR := 90,
     stopChecked := true, stopFired := true }]

/-- Witness for C5 amended on a two-iteration drive loop with
distance_dg 1000 that reaches halfway immediately and terminates in the
tolerance band at iteration 1. -/
theorem C5_latched_stop_evaluation_witness :
    (∀ t, envW5.active t = true) ∧
    (∀ t : ℕ, (fun _ : ℕ => false) t = false) ∧
    driveLoop envW5 1000 90 800 (fun _ => 0) (fun _ => false) 5 0
      { spid := PidController.init 0 0 0, hpid := PidController.init 0 0 0,
        movedEnough := false } = some w5steps ∧
    (w5steps ≠ [] ∧
      ∀ i (hi : i < w5steps.length),
        w5steps[i].motorsDg = motorsAvg envW5 i ∧
        (w5steps[i].stopChecked =
          (List.range (i + 1)).any fun j =>
            decide (|(1000 : ℚ)| / 2 ≤ |motorsAvg envW5 j|)) ∧
        (w5steps[i].stopFired =
          (w5steps[i].stopChecked &&
            (decide (|(1000 : ℚ)| - 20 ≤ |motorsAvg envW5 i|) ||
              envW5.stallL i 90 || envW5.stallR i 90))) ∧
        (w5steps[i].stopFired = true ↔ i = w5steps.length - 1)) := by
  have h : driveLoop envW5 1000 90 800 (fun _ => 0) (fun _ => false) 5 0
      { spid := PidController.init 0 0 0, hpid := PidController.init 0 0 0,
        movedEnough := false } = some w5steps := by
    norm_num [driveLoop, driveIter, motorsAvg, driveSpeedError, clampSpeed, envW5,
      w5steps, PidController.init, PidController.execute, abs_of_nonneg, abs_of_nonpos]
  exact ⟨fun t => rfl, fun t => rfl, h,
    C5_latched_stop_evaluation envW5 1000 90 800 (fun _ => 0) (fun _ => false)
      (PidController.init 0 0 0) (PidController.init 0 0 0) 5 w5steps
      (fun t => rfl) (fun t => rfl) h⟩

lemma turnLoop_halts (env : RobotEnv) (angle : ℚ) (exitE : ℕ → Bool) (T : ℕ)
    (hT : ∀ u, T ≤ u → env.active u = false) :
    ∀ fuel t pid, T ≤ t + fuel →
      ∃ evs pid2 tf, turnLoop env angle exitE fuel t pid = some (evs, pid2, tf) ∧
        tf ≤ max t T := by
  intro fuel
  induction fuel with
  | zero =>
    intro t pid hft
    rw [turnLoop]
    rw [hT t (by omega)]
    simp only [Bool.not_false, Bool.true_or, if_true]
    exact ⟨[], pid, t, rfl, le_max_left t T⟩
  | succ f ih =>
    intro t pid hft
    rw [turnLoop]
    by_cases hc : (!env.active t || exitE t) = true
    · rw [if_pos hc]
      exact ⟨[], pid, t, rfl, le_max_left t T⟩
    · rw [if_neg hc]
      have htT : t < T := by
        by_contra hge
        rw [hT t (by omega)] at hc
        simp at hc
      dsimp only
      by_cases hband : -2 < angle - env.gyro t ∧ angle - env.gyro t < 2
      · rw [if_pos hband]
        exact ⟨_, _, t + 1, rfl, le_trans (by omega : t + 1 ≤ T) (le_max_right t T)⟩
      · rw [if_neg hband]
        obtain ⟨evs, pid2, tf, hrec, htf⟩ :=
          ih (t + 1) ((pid.execute (angle - env.gyro t))) (by omega)
        rw [hrec]
        refine ⟨_, pid2, tf, rfl, ?_⟩
        rw [max_eq_right (by omega : t + 1 ≤ T)] at htf
        exact le_trans htf (le_max_right t T)

lemma driveLoop_halts (env : RobotEnv) (ddg minS maxS : ℚ) (hErr : ℕ → ℚ)
    (exitE : ℕ → Bool) (T : ℕ) (hT : ∀ u, T ≤ u → env.active u = false) :
    ∀ fuel t st, T ≤ t + fuel →
      ∃ steps, driveLoop env ddg minS maxS hErr exitE fuel t st = some steps ∧
        ∀ s ∈ steps, s.t < T := by
  intro fuel
  induction fuel with
  | zero =>
    intro t st hft
    rw [driveLoop]
    rw [hT t (by omega)]
    simp only [Bool.not_false, Bool.true_or, if_true]
    exact ⟨[], rfl, by simp⟩
  | succ f ih =>
    intro t st hft
    rw [driveLoop]
    by_cases hc : (!env.active t || exitE t) = true
    · rw [if_pos hc]
      exact ⟨[], rfl, by simp⟩
    · rw [if_neg hc]
      have htT : t < T := by
        by_contra hge
        rw [hT t (by omega)] at hc
        simp at hc
      dsimp only
      by_cases hstop : (driveIter env ddg minS maxS hErr t st).1.stopFired = true
      · rw [if_pos hstop]
        refine ⟨_, rfl, ?_⟩
        intro s hs
        rw [List.mem_singleton] at hs
        subst hs
        rw [driveIter_fst_t]
        exact htT
      · rw [if_neg hstop]
        obtain ⟨rest, hrec, hmem⟩ :=
          ih (t + 1) (driveIter env ddg minS maxS hErr t st).2 (by omega)
        rw [hrec]
        refine ⟨_, rfl, ?_⟩
        intro s hs
        rcases List.mem_cons.1 hs with rfl | hs2
        · rw [driveIter_fst_t]
          exact htT
        · exact hmem s hs2

lemma squareInner_halts (env : RobotEnv) (leftP rightP : ℕ → Bool) (speed : ℚ)
    (nudge : Bool) (T : ℕ) (hT : ∀ u, T ≤ u → env.active u = false) :
    ∀ fuel t lok rok, T ≤ t + fuel →
      ∃ es tf, squareInner env leftP rightP speed nudge fuel t lok rok = some (es, tf) ∧
        tf ≤ max t T := by
  intro fuel
  induction fuel with
  | zero =>
    intro t lok rok hft
    rw [squareInner]
    rw [hT t (by omega)]
    simp only [Bool.not_false, if_true]
    exact ⟨[], t, rfl, le_max_left t T⟩
  | succ f ih =>
    intro t lok rok hft
    rw [squareInner]
    by_cases hc : env.active t = true
    · have htT : t < T := by
        by_contra hge
        rw [hT t (by omega)] at hc
        simp at hc
      rw [hc]
      simp only [Bool.not_true]
      rw [if_neg (by simp)]
      by_cases hok : ((lok || leftP t) && (rok || rightP t)) = true
      · rw [if_pos hok]
        exact ⟨_, t + 1, rfl, le_trans (by omega : t + 1 ≤ T) (le_max_right t T)⟩
      · rw [if_neg hok]
        obtain ⟨es, tf, hrec, htf⟩ :=
          ih (t + 1) (lok || leftP t) (rok || rightP t) (by omega)
        rw [hrec]
        refine ⟨_, tf, rfl, ?_⟩
        rw [max_eq_right (by omega : t + 1 ≤ T)] at htf
        exact le_trans htf (le_max_right t T)
    · have hcf : env.active t = false := by
        revert hc
        cases env.active t <;> simp
      rw [hcf]
      simp only [Bool.not_false, if_true]
      exact ⟨[], t, rfl, le_max_left t T⟩

lemma squareReps_halts (env : RobotEnv) (leftP rightP : ℕ → Bool) (speed : ℚ)
    (T fuel : ℕ) (hT : ∀ u, T ≤ u → env.active u = false) (hfuel : T ≤ fuel) :
    ∃ evs, squareReps env leftP rightP speed fuel = some evs := by
  obtain ⟨es1, t1, h1, _⟩ :=
    squareInner_halts env leftP rightP speed true T hT fuel 0 false false (by omega)
  rw [squareReps, h1]
  dsimp only
  by_cases hact1 : env.active t1 = true
  · rw [hact1]
    simp only [Bool.not_true]
    rw [if_neg (by simp)]
    obtain ⟨es2, t2, h2, _⟩ :=
      squareInner_halts env leftP rightP speed false T hT fuel t1 false false (by omega)
    rw [h2]
    exact ⟨_, rfl⟩
  · have hcf : env.active t1 = false := by
      revert hact1
      cases env.active t1 <;> simp
    rw [hcf]
    simp only [Bool.not_false, if_true]
    exact ⟨_, rfl⟩

/-- C9: once the active flag is false from time T on, the control loops
of turn, drive and square_line (the inner while-active convergence
loop, and the whole two-repetition body) terminate with no iteration
executing at or after T (each loop exits at its very next flag check),
and with the flag false at entry every primitive - turn, drive,
follow_line, drive_to_line and square_line - returns immediately with
no motor, gyro or drive event and the robot state unchanged. -/
theorem C9_emergency_stop (env : RobotEnv) (T : ℕ)
    (hT : ∀ u, T ≤ u → env.active u = false) :
    (∀ (angle : ℚ) (exitE : ℕ → Bool) (pid : PidController) (fuel : ℕ), T ≤ fuel →
      ∃ evs pid2 tf, turnLoop env angle exitE fuel 0 pid = some (evs, pid2, tf) ∧
        tf ≤ T) ∧
    (∀ (ddg minS maxS : ℚ) (hErr : ℕ → ℚ) (exitE : ℕ → Bool) (st : DriveState)
        (fuel : ℕ), T ≤ fuel →
      ∃ steps, driveLoop env ddg minS maxS hErr exitE fuel 0 st = some steps ∧
        ∀ s ∈ steps, s.t < T) ∧
    (∀ (leftP rightP : ℕ → Bool) (speed : ℚ) (nudge lok rok : Bool) (fuel : ℕ),
        T ≤ fuel →
      ∃ es tf, squareInner env leftP rightP speed nudge fuel 0 lok rok = some (es, tf) ∧
        tf ≤ T) ∧
    (∀ (leftP rightP : ℕ → Bool) (speed : ℚ) (fuel : ℕ), T ≤ fuel →
      ∃ evs, squareReps env leftP rightP speed fuel = some evs) ∧
    (env.active 0 = false →
      (∀ (r : MbRobot) (angle : ℚ) (kp ki kd : Option ℚ) (exitE : ℕ → Bool) (fuel : ℕ),
        turn env r angle kp ki kd exitE fuel = some ([], r, 0)) ∧
      (∀ (r : MbRobot) (distance : ℚ) (orientation : OrientationArg)
          (minS maxS : ℚ) (kp ki kd hkp hki hkd : Option ℚ) (exitE : ℕ → Bool) (fuel : ℕ),
        drive env r distance orientation minS maxS kp ki kd hkp hki hkd exitE fuel =
          some ([], r)) ∧
      (∀ (r : MbRobot) (sensorT : ℕ → ℚ) (distance : ℚ) (tv : Option ℚ)
          (kp ki kd hkp hki hkd : Option ℚ) (exitE : ℕ → Bool) (fuel : ℕ),
        follow_line env r sensorT distance tv kp ki kd hkp hki hkd exitE fuel =
          some ([], r)) ∧
      (∀ (r : MbRobot) (distance : ℚ) (color : String) (sensorT : Option (ℕ → ℚ))
          (orientation : OrientationArg) (kp ki kd hkp hki hkd : Option ℚ)
          (minS maxS : ℚ) (fuel : ℕ),
        drive_to_line env r distance color sensorT orientation kp ki kd hkp hki hkd
          minS maxS fuel = Except.ok (some ([], r))) ∧
      (∀ (forward : Bool) (speed0 : ℚ) (color : String) (fuel : ℕ),
        square_line env forward speed0 color fuel = Except.ok (some []))) := by
  refine ⟨?_, ?_, ?_, ?_, fun hact0 => ⟨?_, ?_, ?_, ?_, ?_⟩⟩
  · intro angle exitE pid fuel hfuel
    obtain ⟨evs, pid2, tf, heq, htf⟩ :=
      turnLoop_halts env angle exitE T hT fuel 0 pid (by omega)
    refine ⟨evs, pid2, tf, heq, ?_⟩
    rw [max_eq_right (Nat.zero_le T)] at htf
    exact htf
  · intro ddg minS maxS hErr exitE st fuel hfuel
    exact driveLoop_halts env ddg minS maxS hErr exitE T hT fuel 0 st (by omega)
  · intro leftP rightP speed nudge lok rok fuel hfuel
    obtain ⟨es, tf, heq, htf⟩ :=
      squareInner_halts env leftP rightP speed nudge T hT fuel 0 lok rok (by omega)
    refine ⟨es, tf, heq, ?_⟩
    rw [max_eq_right (Nat.zero_le T)] at htf
    exact htf
  · intro leftP rightP speed fuel hfuel
    exact squareReps_halts env leftP rightP speed T fuel hT hfuel
  · intro r angle kp ki kd exitE fuel
    simp [turn, hact0]
  · intro r distance orientation minS maxS kp ki kd hkp hki hkd exitE fuel
    simp [drive, hact0]
  · intro r sensorT distance tv kp ki kd hkp hki hkd exitE fuel
    simp [follow_line, hact0]
  · intro r distance color sensorT orientation kp ki kd hkp hki hkd minS maxS fuel
    simp [drive_to_line, hact0]
  · intro forward speed0 color fuel
    simp [square_line, hact0]

/-- Environment for the C9 witness: the emergency stop is latched from
time 0 on. -/
def envC9 : RobotEnv :=
  { gyro := fun _ => 0, motorL := fun _ => 0, motorR := fun _ => 0,
    stallL := fun _ _ => false, stallR := fun _ _ => false,
    reflL := fun _ => 0, reflR := fun _ => 0, calib := (0, 0),
    conv := fun d => 100 * d, active := fun _ => false }

/-- Witness for C9 with the flag false from time 0. -/
theorem C9_emergency_stop_witness :
    (∀ u, 0 ≤ u → envC9.active u = false) ∧
    ((∀ (angle : ℚ) (exitE : ℕ → Bool) (pid : PidController) (fuel : ℕ), 0 ≤ fuel →
      ∃ evs pid2 tf, turnLoop envC9 angle exitE fuel 0 pid = some (evs, pid2, tf) ∧
        tf ≤ 0) ∧
    (∀ (ddg minS maxS : ℚ) (hErr : ℕ → ℚ) (exitE : ℕ → Bool) (st : DriveState)
        (fuel : ℕ), 0 ≤ fuel →
      ∃ steps, driveLoop envC9 ddg minS maxS hErr exitE fuel 0 st = some steps ∧
        ∀ s ∈ steps, s.t < 0) ∧
    (∀ (leftP rightP : ℕ → Bool) (speed : ℚ) (nudge lok rok : Bool) (fuel : ℕ),
        0 ≤ fuel →
      ∃ es tf, squareInner envC9 leftP rightP speed nudge fuel 0 lok rok =
          some (es, tf) ∧ tf ≤ 0) ∧
    (∀ (leftP rightP : ℕ → Bool) (speed : ℚ) (fuel : ℕ), 0 ≤ fuel →
      ∃ evs, squareReps envC9 leftP rightP speed fuel = some evs) ∧
    (envC9.active 0 = false →
      (∀ (r : MbRobot) (angle : ℚ) (kp ki kd : Option ℚ) (exitE : ℕ → Bool) (fuel : ℕ),
        turn envC9 r angle kp ki kd exitE fuel = some ([], r, 0)) ∧
      (∀ (r : MbRobot) (distance : ℚ) (orientation : OrientationArg)
          (minS maxS : ℚ) (kp ki kd hkp hki hkd : Option ℚ) (exitE : ℕ → Bool) (fuel : ℕ),
        drive envC9 r distance orientation minS maxS kp ki kd hkp hki hkd exitE fuel =
          some ([], r)) ∧
      (∀ (r : MbRobot) (sensorT : ℕ → ℚ) (distance : ℚ) (tv : Option ℚ)
          (kp ki kd hkp hki hkd : Option ℚ) (exitE : ℕ → Bool) (fuel : ℕ),
        follow_line envC9 r sensorT distance tv kp ki kd hkp hki hkd exitE fuel =
          some ([], r)) ∧
      (∀ (r : MbRobot) (distance : ℚ) (color : String) (sensorT : Option (ℕ → ℚ))
          (orientation : OrientationArg) (kp ki kd hkp hki hkd : Option ℚ)
          (minS maxS : ℚ) (fuel : ℕ),
        drive_to_line envC9 r distance color sensorT orientation kp ki kd hkp hki hkd
          minS maxS fuel = Except.ok (some ([], r))) ∧
      (∀ (forward : Bool) (speed0 : ℚ) (color : String) (fuel : ℕ),
        square_line envC9 forward speed0 color fuel = Except.ok (some [])))) :=
  ⟨fun _ _ => rfl, C9_emergency_stop envC9 0 (fun _ _ => rfl)⟩
